import Mathlib

/-!
Verification of the Magphi insertion-site evidence classifier specification.

The repository ships the unit tests (`src/Magphi/Magphi_test.py`) and the
orchestration entry point (`src/Magphi/__main__.py`); the classifier module
itself (`search_insertion_sites.py`) is not part of the sources available
here, so the connection resolver and the evidence classifier are modelled
from the specification (sections 3, 4.1, 4.2, 7), with concrete behaviour
pinned by the unit tests where those speak.  The aggregation loop of
`main()` is embedded directly from `src/Magphi/__main__.py`.
-/

/-- Modelled from the spec: the `HitInterval` data model of section 3 of the
specification (the original definition lives in the missing
`search_insertion_sites.py`).  A half-open genomic range on a named contig;
the field `end` of the spec is called `stop` here because `end` is a Lean
keyword.  `source_label` records which half of the seed pair produced the
hit. -/
structure HitInterval where
  contig : String
  start : Nat
  stop : Nat
  source_label : String
deriving DecidableEq

/-- Modelled from the spec: the error taxonomy of section 7 (the original
error signalling lives in the missing `search_insertion_sites.py`). -/
inductive MagphiError where
  | DataIntegrityError
  | ConfigurationError
deriving DecidableEq

/-- Modelled from the spec: the `ConnectionOutcome` data model of section 3
(the original lives in the missing `search_insertion_sites.py`). -/
inductive ConnectionOutcome where
  | NoConnection
  | SameContigConnection (gap : Int)
  | CrossContigConnection (extended_a extended_b : HitInterval)
deriving DecidableEq

/-- Lookup in the per-genome contig-length table (`ContigLengths`,
section 3 of the specification). -/
def contigLen? (cl : List (String × Nat)) (c : String) : Option Nat :=
  (cl.find? (fun p => p.1 == c)).map (fun p => p.2)

/-- Total version of the contig-length lookup; only used after the
integrity check has established that the contig is present. -/
def lenOf (cl : List (String × Nat)) (c : String) : Nat :=
  (contigLen? cl c).getD 0

/-- Modelled from the spec: the signed gap between the nearer edges of two
intervals on the same contig (section 4.1; negative means overlap). -/
def sameContigGap (a b : HitInterval) : Int :=
  if a.start ≤ b.start then (b.start : Int) - (a.stop : Int)
  else (a.start : Int) - (b.stop : Int)

/-- Modelled from the spec: the same-contig half of the connection resolver
(section 4.1).  For `max_gap = 0` the gap check is disabled (the spec calls
this setting unbounded, and the unit test `test_no_max_distance_limit`
returns evidence 3 at max distance 0, which requires non-touching hits to
connect); otherwise the pair connects when the signed gap between the
nearer edges is at most `max_gap` (overlap and touch give gap at most 0). -/
def sameConnects (g : Nat) (a b : HitInterval) : Bool :=
  g == 0 || decide (sameContigGap a b ≤ (g : Int))

/-- Distance from the interval to the nearest end of its contig. -/
def minDist (iv : HitInterval) (len : Nat) : Nat :=
  min iv.start (len - iv.stop)

/-- Whether the interval is within `g` of either end of its contig
(section 4.1: both ends are tested). -/
def reaches (iv : HitInterval) (len g : Nat) : Bool :=
  decide (iv.start ≤ g) || decide (len - iv.stop ≤ g)

/-- Number of contig ends (0, 1 or 2) the interval lies within `g` of. -/
def endsWithin (iv : HitInterval) (len g : Nat) : Nat :=
  (if iv.start ≤ g then 1 else 0) + (if len - iv.stop ≤ g then 1 else 0)

/-- Modelled from the spec: the cross-contig acceptance test of the
connection resolver (section 4.1): for positive `max_gap` both intervals
must be within `max_gap` of some end of their own contig; for
`max_gap = 0` the spec accepts whenever either interval already touches its
contig boundary. -/
def crossAccept (g : Nat) (a : HitInterval) (la : Nat) (b : HitInterval) (lb : Nat) : Bool :=
  if g = 0 then reaches a la 0 || reaches b lb 0
  else reaches a la g && reaches b lb g

/-- Modelled from the spec: widening an interval from its reaching edge to
the contig boundary (section 4.1: the coordinate becomes the contig start
or the contig length, whichever edge was reached; the nearer edge is taken,
with the contig start preferred on a tie). -/
def extendToBoundary (iv : HitInterval) (len : Nat) : HitInterval :=
  if iv.start ≤ len - iv.stop then { iv with start := 0 }
  else { iv with stop := len }

/-- Modelled from the spec: the pairwise connection resolver of
section 4.1 (the original lives in the missing
`search_insertion_sites.py`).  Dispatches on whether the two intervals
share a contig. -/
def connect (cl : List (String × Nat)) (g : Nat) (a b : HitInterval) : ConnectionOutcome :=
  if a.contig == b.contig then
    if sameConnects g a b then ConnectionOutcome.SameContigConnection (sameContigGap a b)
    else ConnectionOutcome.NoConnection
  else
    if crossAccept g a (lenOf cl a.contig) b (lenOf cl b.contig) then
      ConnectionOutcome.CrossContigConnection
        (extendToBoundary a (lenOf cl a.contig))
        (extendToBoundary b (lenOf cl b.contig))
    else ConnectionOutcome.NoConnection

/-- All `(half_a, half_b)` interval combinations for one seed pair. -/
def pairCombos (hitsA hitsB : List HitInterval) : List (HitInterval × HitInterval) :=
  hitsA.flatMap (fun a => hitsB.map (fun b => (a, b)))

/-- The accepted same-contig connections among all hit combinations. -/
def sameConns (hitsA hitsB : List HitInterval) (g : Nat) : List (HitInterval × HitInterval) :=
  (pairCombos hitsA hitsB).filter
    (fun p => p.1.contig == p.2.contig && sameConnects g p.1 p.2)

/-- The accepted cross-contig connections among all hit combinations. -/
def crossConns (hitsA hitsB : List HitInterval) (cl : List (String × Nat)) (g : Nat) :
    List (HitInterval × HitInterval) :=
  (pairCombos hitsA hitsB).filter
    (fun p => !(p.1.contig == p.2.contig) &&
      crossAccept g p.1 (lenOf cl p.1.contig) p.2 (lenOf cl p.2.contig))

/-- Number of distinct candidate bridgings an accepted cross-contig pair
contributes: one per combination of reached ends on the two sides. -/
def crossMultiplicity (cl : List (String × Nat)) (g : Nat)
    (p : HitInterval × HitInterval) : Nat :=
  endsWithin p.1 (lenOf cl p.1.contig) g * endsWithin p.2 (lenOf cl p.2.contig) g

/-- Number of distinct accepted connections for a seed pair: each accepted
same-contig pair counts once, each accepted cross-contig pair counts one
candidate bridging per combination of reached ends. -/
def distinctConnCount (hitsA hitsB : List HitInterval) (cl : List (String × Nat))
    (g : Nat) : Nat :=
  (sameConns hitsA hitsB g).length +
    ((crossConns hitsA hitsB cl g).map (crossMultiplicity cl g)).sum

/-- Modelled from the spec: the evidence classifier of section 4.2 (the
original `examine_flanking_regions` lives in the missing
`search_insertion_sites.py`).  Returns the evidence code, the optional
rewritten interval pair, and the interval collection as persisted on disk
after classification.  The priority cascade follows section 4.2:
insufficient data (1), no connection (2), unique same-contig connection
with no extra hits (7) or with extra hits (5), unique cross-contig
connection with each side reaching exactly one contig end (6), unique
cross-contig connection where one side reaches both ends and the other
exactly one (4), and the multiple-connections fallback (3).  The unit test
`test_multiple_hits_multiple_contigs_inter_contig_connect` pins that a
same-contig outcome (codes 7 and 5) also persists just the connected pair,
with unchanged coordinates; code 6 persists the boundary-extended pair. -/
def classifyFull (hitsA hitsB : List HitInterval) (cl : List (String × Nat)) (g : Nat) :
    Nat × Option (HitInterval × HitInterval) × List HitInterval :=
  if hitsA.length = 0 ∨ hitsB.length = 0 ∨ hitsA.length + hitsB.length = 1 then
    (1, none, hitsA ++ hitsB)
  else
    match sameConns hitsA hitsB g, crossConns hitsA hitsB cl g with
    | [], [] => (2, none, hitsA ++ hitsB)
    | [pq], [] =>
        if hitsA.length + hitsB.length = 2 then (7, none, [pq.1, pq.2])
        else (5, none, [pq.1, pq.2])
    | [], [p] =>
        if endsWithin p.1 (lenOf cl p.1.contig) g = 1 ∧
           endsWithin p.2 (lenOf cl p.2.contig) g = 1 then
          (6, some (extendToBoundary p.1 (lenOf cl p.1.contig),
                    extendToBoundary p.2 (lenOf cl p.2.contig)),
           [extendToBoundary p.1 (lenOf cl p.1.contig),
            extendToBoundary p.2 (lenOf cl p.2.contig)])
        else if (endsWithin p.1 (lenOf cl p.1.contig) g = 2 ∧
                 endsWithin p.2 (lenOf cl p.2.contig) g = 1) ∨
                (endsWithin p.1 (lenOf cl p.1.contig) g = 1 ∧
                 endsWithin p.2 (lenOf cl p.2.contig) g = 2) then
          (4, none, hitsA ++ hitsB)
        else (3, none, hitsA ++ hitsB)
    | _, _ => (3, none, hitsA ++ hitsB)

/-- Modelled from the spec: the interval integrity test of section 7 — an
interval is malformed when `start ≥ end` or its contig is absent from the
contig-length table. -/
def validInterval (cl : List (String × Nat)) (iv : HitInterval) : Bool :=
  decide (iv.start < iv.stop) && (contigLen? cl iv.contig).isSome

/-- Modelled from the spec: classification of one seed pair for one genome
(section 4.2 together with the error taxonomy of section 7; the original
lives in the missing `search_insertion_sites.py`).  Malformed input fails
with `DataIntegrityError` instead of being coerced into an evidence
code. -/
def examine_flanking_regions (hitsA hitsB : List HitInterval)
    (cl : List (String × Nat)) (g : Nat) :
    Except MagphiError (Nat × Option (HitInterval × HitInterval) × List HitInterval) :=
  if (hitsA ++ hitsB).all (validInterval cl) then
    Except.ok (classifyFull hitsA hitsB cl g)
  else Except.error MagphiError.DataIntegrityError

/-- Modelled from the spec: the per-genome driver classifying every seed
pair independently (section 4.2 and section 7: a `DataIntegrityError` is
scoped to one seed pair and does not abort sibling classifications; the
original `check_primers_placement` lives in the missing
`search_insertion_sites.py`). -/
def check_primers_placement
    (ps : List (String × List HitInterval × List HitInterval))
    (cl : List (String × Nat)) (g : Nat) :
    List (String ×
      Except MagphiError (Nat × Option (HitInterval × HitInterval) × List HitInterval)) :=
  ps.map (fun pr => (pr.1, examine_flanking_regions pr.2.1 pr.2.2 cl g))

/-! Result aggregation in `main()` (`src/Magphi/__main__.py`, lines
208-244).  Per-genome dictionaries are modelled as association lists with
Python `dict.__setitem__` semantics (replace in place when the key exists,
append otherwise); the dictionary values are opaque and modelled as
strings. -/

/-- One completed per-genome task result, as returned by
`screen_genome_for_primers` and unpacked in `main()`
(`src/Magphi/__main__.py`, line 222). -/
structure GenomeResult where
  genome_name : String
  primer_hits : List (String × String)
  annots_per_interval : List (String × String)
  primer_evidence : List (String × String)
  inter_primer_dist : List (String × String)

/-- The four master dictionaries of `main()`
(`src/Magphi/__main__.py`, lines 199-203). -/
structure MasterDicts where
  master_primer_hits : List (String × List (String × String))
  master_annotation_hits : List (String × List (String × String))
  master_primer_evidence : List (String × List (String × String))
  master_inter_primer_dist : List (String × List (String × String))

/-- Python dictionary assignment `d[k] = v`: replace the value in place if
the key is present, append otherwise. -/
def dictInsert {α : Type} (d : List (String × α)) (k : String) (v : α) :
    List (String × α) :=
  if d.any (fun p => p.1 == k) then
    d.map (fun p => if p.1 == k then (k, v) else p)
  else d ++ [(k, v)]

/-- Python dictionary read `d[k]` (as an option). -/
def dictLookup {α : Type} (d : List (String × α)) (k : String) : Option α :=
  (d.find? (fun p => p.1 == k)).map (fun p => p.2)

/-- Characters after the last slash, mirroring Python
`genome_name.rsplit(sep, 1)[-1]` with separator the slash character: the
suffix after the last separator, or the whole string when none occurs. -/
def afterLastSlash (cs : List Char) : List Char :=
  cs.foldl (fun acc c => if c = '/' then [] else acc ++ [c]) []

/-- The genome-name polishing of `main()`
(`src/Magphi/__main__.py`, line 225). -/
def polishName (s : String) : String :=
  String.mk (afterLastSlash s.data)

/-- The body of the fan-in loop of `main()`
(`src/Magphi/__main__.py`, lines 222-240): store the four result
dictionaries under the polished genome name and insert a `genome` entry
equal to that key into each stored dictionary. -/
def processResult (m : MasterDicts) (r : GenomeResult) : MasterDicts :=
  let key := polishName r.genome_name
  { master_primer_hits :=
      dictInsert m.master_primer_hits key (dictInsert r.primer_hits "genome" key),
    master_annotation_hits :=
      dictInsert m.master_annotation_hits key
        (dictInsert r.annots_per_interval "genome" key),
    master_primer_evidence :=
      dictInsert m.master_primer_evidence key
        (dictInsert r.primer_evidence "genome" key),
    master_inter_primer_dist :=
      dictInsert m.master_inter_primer_dist key
        (dictInsert r.inter_primer_dist "genome" key) }

/-- The initially empty master dictionaries
(`src/Magphi/__main__.py`, lines 199-203). -/
def emptyMasters : MasterDicts :=
  { master_primer_hits := [], master_annotation_hits := [],
    master_primer_evidence := [], master_inter_primer_dist := [] }

/-- The fan-in of `main()` over a list of completed per-genome results in
completion order (`src/Magphi/__main__.py`, lines 213-240). -/
def mainAggregate (rs : List GenomeResult) : MasterDicts :=
  rs.foldl processResult emptyMasters

/-! Helper lemmas. -/

theorem reaches_of_endsWithin (iv : HitInterval) (len g : Nat)
    (h : 1 ≤ endsWithin iv len g) : reaches iv len g = true := by
  unfold endsWithin at h
  unfold reaches
  by_cases h1 : iv.start ≤ g <;> by_cases h2 : len - iv.stop ≤ g <;>
    simp [h1, h2] at h ⊢

theorem endsWithin_of_reaches (iv : HitInterval) (len g : Nat)
    (h : reaches iv len g = true) : 1 ≤ endsWithin iv len g := by
  unfold reaches at h
  unfold endsWithin
  by_cases h1 : iv.start ≤ g <;> by_cases h2 : len - iv.stop ≤ g <;>
    simp [h1, h2] at h ⊢

theorem crossAccept_of_ends (g : Nat) (a : HitInterval) (la : Nat) (b : HitInterval)
    (lb : Nat) (ha : 1 ≤ endsWithin a la g) (hb : 1 ≤ endsWithin b lb g) :
    crossAccept g a la b lb = true := by
  unfold crossAccept
  split
  · next hg =>
      subst hg
      simp [reaches_of_endsWithin a la 0 ha]
  · simp [reaches_of_endsWithin a la g ha, reaches_of_endsWithin b lb g hb]

theorem extend_far_edge (iv : HitInterval) (len : Nat) :
    (extendToBoundary iv len).start = 0 ∨ (extendToBoundary iv len).stop = len := by
  unfold extendToBoundary
  split <;> simp

theorem pairCombos_single (a b : HitInterval) : pairCombos [a] [b] = [(a, b)] := by
  simp [pairCombos]

theorem sameConns_single_of_same (a b : HitInterval) (g : Nat) (h : a.contig = b.contig)
    (hc : sameConnects g a b = true) : sameConns [a] [b] g = [(a, b)] := by
  have hb : (a.contig == b.contig) = true := beq_iff_eq.mpr h
  simp [sameConns, pairCombos, List.filter, hb, hc]

theorem sameConns_single_of_cross (a b : HitInterval) (g : Nat) (h : a.contig ≠ b.contig) :
    sameConns [a] [b] g = [] := by
  have hb : (a.contig == b.contig) = false := beq_eq_false_iff_ne.mpr h
  simp [sameConns, pairCombos, List.filter, hb]

theorem crossConns_single_of_same (a b : HitInterval) (cl : List (String × Nat)) (g : Nat)
    (h : a.contig = b.contig) : crossConns [a] [b] cl g = [] := by
  have hb : (a.contig == b.contig) = true := beq_iff_eq.mpr h
  simp [crossConns, pairCombos, List.filter, hb]

theorem crossConns_single_of_cross (a b : HitInterval) (cl : List (String × Nat)) (g : Nat)
    (h : a.contig ≠ b.contig)
    (hacc : crossAccept g a (lenOf cl a.contig) b (lenOf cl b.contig) = true) :
    crossConns [a] [b] cl g = [(a, b)] := by
  have hb : (a.contig == b.contig) = false := beq_eq_false_iff_ne.mpr h
  simp [crossConns, pairCombos, List.filter, hb, hacc]

theorem mem_crossConns_accept (hitsA hitsB : List HitInterval) (cl : List (String × Nat))
    (g : Nat) (p : HitInterval × HitInterval) (hp : p ∈ crossConns hitsA hitsB cl g) :
    crossAccept g p.1 (lenOf cl p.1.contig) p.2 (lenOf cl p.2.contig) = true := by
  have h := (List.mem_filter.mp hp).2
  simp only [Bool.and_eq_true] at h
  exact h.2

theorem one_le_crossMultiplicity (hitsA hitsB : List HitInterval) (cl : List (String × Nat))
    (g : Nat) (p : HitInterval × HitInterval) (hg : 1 ≤ g)
    (hp : p ∈ crossConns hitsA hitsB cl g) : 1 ≤ crossMultiplicity cl g p := by
  have hacc := mem_crossConns_accept hitsA hitsB cl g p hp
  unfold crossAccept at hacc
  rw [if_neg (by omega : ¬ g = 0)] at hacc
  simp only [Bool.and_eq_true] at hacc
  have h1 := endsWithin_of_reaches p.1 (lenOf cl p.1.contig) g hacc.1
  have h2 := endsWithin_of_reaches p.2 (lenOf cl p.2.contig) g hacc.2
  calc 1 = 1 * 1 := rfl
    _ ≤ _ := Nat.mul_le_mul h1 h2

theorem dictLookup_dictInsert_self {α : Type} (d : List (String × α)) (k : String) (v : α) :
    dictLookup (dictInsert d k v) k = some v := by
  induction d with
  | nil => simp [dictInsert, dictLookup]
  | cons hd tl ih =>
    by_cases hhd : hd.1 = k
    · simp [dictInsert, dictLookup, List.any_cons, hhd, List.find?]
    · by_cases htl : tl.any (fun p => p.1 == k) = true
      · simp only [dictInsert, List.any_cons, hhd, htl] at ih ⊢
        simp only [beq_iff_eq, hhd, if_false, Bool.false_or, if_true, ite_true] at ih ⊢
        simp [dictLookup, List.find?, hhd] at ih ⊢
        exact ih
      · simp only [dictInsert, List.any_cons, htl] at ih ⊢
        simp only [beq_iff_eq, hhd, if_false, Bool.false_or, ite_false] at ih ⊢
        simp [dictLookup, List.find?, hhd] at ih ⊢
        exact ih

/-- C10: `main()` stores each completed genome task's four result
dictionaries in the master dictionaries under the key obtained by taking
the substring of the returned genome name after the last slash, inserts a
`genome` entry equal to that key into each stored dictionary, two genome
paths differing only before the last slash share one key, and the
later-completing task's results replace the earlier ones at that key. -/
theorem c10_main_genome_key (ms : List GenomeResult) (r : GenomeResult) :
    dictLookup (mainAggregate (ms ++ [r])).master_primer_hits (polishName r.genome_name)
      = some (dictInsert r.primer_hits "genome" (polishName r.genome_name))
    ∧ dictLookup (mainAggregate (ms ++ [r])).master_annotation_hits (polishName r.genome_name)
      = some (dictInsert r.annots_per_interval "genome" (polishName r.genome_name))
    ∧ dictLookup (mainAggregate (ms ++ [r])).master_primer_evidence (polishName r.genome_name)
      = some (dictInsert r.primer_evidence "genome" (polishName r.genome_name))
    ∧ dictLookup (mainAggregate (ms ++ [r])).master_inter_primer_dist (polishName r.genome_name)
      = some (dictInsert r.inter_primer_dist "genome" (polishName r.genome_name))
    ∧ dictLookup (dictInsert r.primer_hits "genome" (polishName r.genome_name)) "genome"
      = some (polishName r.genome_name)
    ∧ polishName "run_one/genome_A.fasta" = "genome_A.fasta"
    ∧ polishName "run_two/genome_A.fasta" = "genome_A.fasta" := by
  have hagg : mainAggregate (ms ++ [r]) = processResult (mainAggregate ms) r := by
    simp [mainAggregate, List.foldl_append]
  rw [hagg]
  refine ⟨?_, ?_, ?_, ?_, ?_, ?_, ?_⟩
  · simp only [processResult]
    exact dictLookup_dictInsert_self _ _ _
  · simp only [processResult]
    exact dictLookup_dictInsert_self _ _ _
  · simp only [processResult]
    exact dictLookup_dictInsert_self _ _ _
  · simp only [processResult]
    exact dictLookup_dictInsert_self _ _ _
  · exact dictLookup_dictInsert_self _ _ _
  · rfl
  · rfl

/-- C2: a seed pair whose outcome set holds exactly one accepted
connection, on a single contig, with no hits beyond the two connected
intervals, is classified with evidence code 7 (and nothing is rewritten:
the persisted collection is the original pair). -/
theorem c2_same_contig_code7 (a b : HitInterval) (cl : List (String × Nat)) (g : Nat)
    (hva : validInterval cl a = true) (hvb : validInterval cl b = true)
    (hctg : a.contig = b.contig) (hconn : sameConnects g a b = true) :
    examine_flanking_regions [a] [b] cl g = Except.ok (7, none, [a, b]) := by
  unfold examine_flanking_regions
  rw [if_pos (by simp [hva, hvb])]
  unfold classifyFull
  rw [sameConns_single_of_same a b g hctg hconn, crossConns_single_of_same a b cl g hctg]
  simp

/-- C2 witness at a concrete input. -/
theorem c2_witness :
    examine_flanking_regions
      [{ contig := "c1", start := 100, stop := 200, source_label := "w_1" }]
      [{ contig := "c1", start := 210, stop := 300, source_label := "w_2" }]
      [("c1", 1000)] 20
      = Except.ok (7, none,
          [{ contig := "c1", start := 100, stop := 200, source_label := "w_1" },
           { contig := "c1", start := 210, stop := 300, source_label := "w_2" }]) :=
  c2_same_contig_code7
    { contig := "c1", start := 100, stop := 200, source_label := "w_1" }
    { contig := "c1", start := 210, stop := 300, source_label := "w_2" }
    [("c1", 1000)] 20 (by decide) (by decide) (by decide) (by decide)

/-- C3: when either half of the seed pair has zero hits, or the total hit
count across both halves is 1, classification returns evidence code 1, for
every `max_gap`, in particular however many hits the single hitting half
has; the collection is untouched. -/
theorem c3_insufficient_code1 (hitsA hitsB : List HitInterval) (cl : List (String × Nat))
    (g : Nat) (hv : (hitsA ++ hitsB).all (validInterval cl) = true)
    (h1 : hitsA.length = 0 ∨ hitsB.length = 0 ∨ hitsA.length + hitsB.length = 1) :
    examine_flanking_regions hitsA hitsB cl g = Except.ok (1, none, hitsA ++ hitsB) := by
  unfold examine_flanking_regions classifyFull
  rw [if_pos hv, if_pos h1]

/-- C3 witness: one half with two hits on two contigs, the other empty. -/
theorem c3_witness :
    examine_flanking_regions
      [{ contig := "c1", start := 10, stop := 20, source_label := "v_1" },
       { contig := "c2", start := 10, stop := 20, source_label := "v_1" }]
      [] [("c1", 100), ("c2", 100)] 7
      = Except.ok (1, none,
          [{ contig := "c1", start := 10, stop := 20, source_label := "v_1" },
           { contig := "c2", start := 10, stop := 20, source_label := "v_1" }]) := by
  have h := c3_insufficient_code1
    [{ contig := "c1", start := 10, stop := 20, source_label := "v_1" },
     { contig := "c2", start := 10, stop := 20, source_label := "v_1" }]
    [] [("c1", 100), ("c2", 100)] 7 (by decide) (by decide)
  simpa using h

/-- C1 (amended): with exactly one hit per half on different contigs, each
hit within `max_gap` of exactly one end of its own contig, the accepted
cross-contig connection is classified with evidence code 6 and the two
intervals are rewritten so that each is widened from its reaching edge to
its contig boundary: the rewritten far edge equals the contig start or the
contig length. -/
theorem c1_cross_reach_code6_amended (a b : HitInterval) (cl : List (String × Nat))
    (g : Nat) (hva : validInterval cl a = true) (hvb : validInterval cl b = true)
    (hctg : a.contig ≠ b.contig)
    (ha1 : endsWithin a (lenOf cl a.contig) g = 1)
    (hb1 : endsWithin b (lenOf cl b.contig) g = 1) :
    examine_flanking_regions [a] [b] cl g
      = Except.ok (6,
          some (extendToBoundary a (lenOf cl a.contig), extendToBoundary b (lenOf cl b.contig)),
          [extendToBoundary a (lenOf cl a.contig), extendToBoundary b (lenOf cl b.contig)])
    ∧ ((extendToBoundary a (lenOf cl a.contig)).start = 0 ∨
        (extendToBoundary a (lenOf cl a.contig)).stop = lenOf cl a.contig)
    ∧ ((extendToBoundary b (lenOf cl b.contig)).start = 0 ∨
        (extendToBoundary b (lenOf cl b.contig)).stop = lenOf cl b.contig) := by
  have hacc : crossAccept g a (lenOf cl a.contig) b (lenOf cl b.contig) = true :=
    crossAccept_of_ends g a (lenOf cl a.contig) b (lenOf cl b.contig)
      (by omega) (by omega)
  refine ⟨?_, extend_far_edge a _, extend_far_edge b _⟩
  unfold examine_flanking_regions
  rw [if_pos (by simp [hva, hvb])]
  unfold classifyFull
  rw [sameConns_single_of_cross a b g hctg, crossConns_single_of_cross a b cl g hctg hacc]
  simp [ha1, hb1]

/-- C1 witness at a concrete input: each interval within `max_gap` of
exactly one end of its contig. -/
theorem c1_witness :
    examine_flanking_regions
      [{ contig := "c1", start := 100, stop := 300, source_label := "pl_1" }]
      [{ contig := "c2", start := 25, stop := 75, source_label := "pl_2" }]
      [("c1", 1000), ("c2", 600)] 101
      = Except.ok (6,
          some ({ contig := "c1", start := 0, stop := 300, source_label := "pl_1" },
                { contig := "c2", start := 0, stop := 75, source_label := "pl_2" }),
          [{ contig := "c1", start := 0, stop := 300, source_label := "pl_1" },
           { contig := "c2", start := 0, stop := 75, source_label := "pl_2" }]) := by
  have h := (c1_cross_reach_code6_amended
    { contig := "c1", start := 100, stop := 300, source_label := "pl_1" }
    { contig := "c2", start := 25, stop := 75, source_label := "pl_2" }
    [("c1", 1000), ("c2", 600)] 101 (by decide) (by decide) (by decide)
    (by decide) (by decide)).1
  simpa using h

/-- C1 counterexample: both hits are within `max_gap` of a contig end and
the cross-contig connection is accepted, exactly one hit per half, yet the
classifier returns evidence code 4 (not 6) because the first interval is
within `max_gap` of both ends of its contig. -/
theorem c1_counterexample :
    minDist { contig := "c1", start := 4, stop := 6, source_label := "px_1" } 10 ≤ 100
    ∧ minDist { contig := "c2", start := 0, stop := 50, source_label := "px_2" } 1000 ≤ 100
    ∧ crossConns
        [{ contig := "c1", start := 4, stop := 6, source_label := "px_1" }]
        [{ contig := "c2", start := 0, stop := 50, source_label := "px_2" }]
        [("c1", 10), ("c2", 1000)] 100
        = [({ contig := "c1", start := 4, stop := 6, source_label := "px_1" },
            { contig := "c2", start := 0, stop := 50, source_label := "px_2" })]
    ∧ examine_flanking_regions
        [{ contig := "c1", start := 4, stop := 6, source_label := "px_1" }]
        [{ contig := "c2", start := 0, stop := 50, source_label := "px_2" }]
        [("c1", 10), ("c2", 1000)] 100
        = Except.ok (4, none,
            [{ contig := "c1", start := 4, stop := 6, source_label := "px_1" },
             { contig := "c2", start := 0, stop := 50, source_label := "px_2" }]) :=
  ⟨by decide, by decide, by decide, rfl⟩

/-- C5 (amended): when the outcome set holds exactly one accepted
connection, that connection is cross-contig, and one of its sides reaches
both ends of its contig while the other reaches exactly one (and there is
no other accepted connection, same-contig or cross-contig), the classifier
returns evidence code 4 and nothing is rewritten. -/
theorem c5_mixed_reach_code4_amended (hitsA hitsB : List HitInterval)
    (cl : List (String × Nat)) (g : Nat) (p : HitInterval × HitInterval)
    (hv : (hitsA ++ hitsB).all (validInterval cl) = true)
    (h1 : ¬(hitsA.length = 0 ∨ hitsB.length = 0 ∨ hitsA.length + hitsB.length = 1))
    (hsa : sameConns hitsA hitsB g = [])
    (hcr : crossConns hitsA hitsB cl g = [p])
    (hmx : (endsWithin p.1 (lenOf cl p.1.contig) g = 2 ∧
            endsWithin p.2 (lenOf cl p.2.contig) g = 1) ∨
           (endsWithin p.1 (lenOf cl p.1.contig) g = 1 ∧
            endsWithin p.2 (lenOf cl p.2.contig) g = 2)) :
    examine_flanking_regions hitsA hitsB cl g = Except.ok (4, none, hitsA ++ hitsB) := by
  unfold examine_flanking_regions
  rw [if_pos hv]
  unfold classifyFull
  rw [if_neg h1, hsa, hcr]
  have hne : ¬(endsWithin p.1 (lenOf cl p.1.contig) g = 1 ∧
      endsWithin p.2 (lenOf cl p.2.contig) g = 1) := by
    rcases hmx with ⟨h2, _⟩ | ⟨_, h2⟩ <;> omega
  simp [hne, hmx]

/-- C5 witness at a concrete input with mixed reach and no competing
connection. -/
theorem c5_witness :
    examine_flanking_regions
      [{ contig := "c1", start := 4, stop := 6, source_label := "pm_1" }]
      [{ contig := "c2", start := 0, stop := 50, source_label := "pm_2" }]
      [("c1", 10), ("c2", 1000)] 100
      = Except.ok (4, none,
          [{ contig := "c1", start := 4, stop := 6, source_label := "pm_1" },
           { contig := "c2", start := 0, stop := 50, source_label := "pm_2" }]) :=
  c5_mixed_reach_code4_amended
    [{ contig := "c1", start := 4, stop := 6, source_label := "pm_1" }]
    [{ contig := "c2", start := 0, stop := 50, source_label := "pm_2" }]
    [("c1", 10), ("c2", 1000)] 100
    ({ contig := "c1", start := 4, stop := 6, source_label := "pm_1" },
     { contig := "c2", start := 0, stop := 50, source_label := "pm_2" })
    (by decide) (by decide) (by decide) (by decide) (by decide)

/-- C5 counterexample: the outcome set contains an accepted cross-contig
connection with mixed reach (one side within `max_gap` of both contig ends,
the other of exactly one), but also a same-contig accepted connection; the
classifier returns evidence code 3, not 4. -/
theorem c5_counterexample :
    crossConns
      [{ contig := "c1", start := 4, stop := 6, source_label := "pc_1" },
       { contig := "c2", start := 60, stop := 70, source_label := "pc_1" }]
      [{ contig := "c2", start := 0, stop := 50, source_label := "pc_2" }]
      [("c1", 10), ("c2", 1000)] 100
      = [({ contig := "c1", start := 4, stop := 6, source_label := "pc_1" },
          { contig := "c2", start := 0, stop := 50, source_label := "pc_2" })]
    ∧ endsWithin { contig := "c1", start := 4, stop := 6, source_label := "pc_1" } 10 100 = 2
    ∧ endsWithin { contig := "c2", start := 0, stop := 50, source_label := "pc_2" } 1000 100 = 1
    ∧ examine_flanking_regions
        [{ contig := "c1", start := 4, stop := 6, source_label := "pc_1" },
         { contig := "c2", start := 60, stop := 70, source_label := "pc_1" }]
        [{ contig := "c2", start := 0, stop := 50, source_label := "pc_2" }]
        [("c1", 10), ("c2", 1000)] 100
        = Except.ok (3, none,
            [{ contig := "c1", start := 4, stop := 6, source_label := "pc_1" },
             { contig := "c2", start := 60, stop := 70, source_label := "pc_1" },
             { contig := "c2", start := 0, stop := 50, source_label := "pc_2" }]) :=
  ⟨by decide, by decide, by decide, rfl⟩

theorem reaches_iff_minDist (iv : HitInterval) (len g : Nat) :
    reaches iv len g = true ↔ minDist iv len ≤ g := by
  unfold reaches minDist
  simp [min_le_iff]

theorem connect_cross_ne_iff (cl : List (String × Nat)) (g : Nat) (a b : HitInterval)
    (hctg : a.contig ≠ b.contig) :
    (connect cl g a b ≠ ConnectionOutcome.NoConnection) ↔
      crossAccept g a (lenOf cl a.contig) b (lenOf cl b.contig) = true := by
  have hb : (a.contig == b.contig) = false := beq_eq_false_iff_ne.mpr hctg
  unfold connect
  rw [hb]
  simp only [Bool.false_eq_true, if_false]
  split <;> simp_all

/-- C6 (amended): for intervals on different contigs and positive
`max_gap`, the resolver accepts a cross-contig connection if and only if
both intervals are within `max_gap` of some end of their own contig, and
acceptance is monotone over positive gap values: a connection accepted at
`d ≥ 1` stays accepted for every `max_gap ≥ d`. -/
theorem c6_cross_iff_monotone_amended (cl : List (String × Nat)) (a b : HitInterval)
    (g d : Nat) (hctg : a.contig ≠ b.contig) (hg : 1 ≤ g) :
    ((connect cl g a b ≠ ConnectionOutcome.NoConnection) ↔
      (minDist a (lenOf cl a.contig) ≤ g ∧ minDist b (lenOf cl b.contig) ≤ g))
    ∧ (1 ≤ d → d ≤ g → connect cl d a b ≠ ConnectionOutcome.NoConnection →
        connect cl g a b ≠ ConnectionOutcome.NoConnection) := by
  have hcross : ∀ g2 : Nat, 1 ≤ g2 →
      ((connect cl g2 a b ≠ ConnectionOutcome.NoConnection) ↔
        (minDist a (lenOf cl a.contig) ≤ g2 ∧ minDist b (lenOf cl b.contig) ≤ g2)) := by
    intro g2 hg2
    rw [connect_cross_ne_iff cl g2 a b hctg]
    unfold crossAccept
    rw [if_neg (by omega : ¬ g2 = 0)]
    simp only [Bool.and_eq_true]
    rw [reaches_iff_minDist, reaches_iff_minDist]
  constructor
  · exact hcross g hg
  · intro hd hdg hconn
    have h := (hcross d hd).mp hconn
    exact (hcross g hg).mpr ⟨le_trans h.1 hdg, le_trans h.2 hdg⟩

/-- C6 witness: a concrete accepted cross-contig connection at
`max_gap = 25`, with both intervals within 25 of a contig end. -/
theorem c6_witness :
    connect [("c1", 100), ("c2", 100)] 25
      { contig := "c1", start := 5, stop := 10, source_label := "s_1" }
      { contig := "c2", start := 20, stop := 30, source_label := "s_2" }
      ≠ ConnectionOutcome.NoConnection :=
  (c6_cross_iff_monotone_amended [("c1", 100), ("c2", 100)]
    { contig := "c1", start := 5, stop := 10, source_label := "s_1" }
    { contig := "c2", start := 20, stop := 30, source_label := "s_2" }
    25 1 (by decide) (by decide)).1.mpr ⟨by decide, by decide⟩

/-- C6 counterexample: at `max_gap = 0` the resolver accepts a cross-contig
connection although the second interval is not within 0 of any end of its
contig (so the biconditional fails at 0), and the same connection is no
longer accepted at `max_gap = 1 ≥ 0` (so monotonicity from `d = 0`
fails). -/
theorem c6_counterexample :
    connect [("c1", 100), ("c2", 100)] 0
      { contig := "c1", start := 0, stop := 10, source_label := "q_1" }
      { contig := "c2", start := 50, stop := 60, source_label := "q_2" }
      ≠ ConnectionOutcome.NoConnection
    ∧ ¬(minDist { contig := "c2", start := 50, stop := 60, source_label := "q_2" } 100 ≤ 0)
    ∧ connect [("c1", 100), ("c2", 100)] 1
        { contig := "c1", start := 0, stop := 10, source_label := "q_1" }
        { contig := "c2", start := 50, stop := 60, source_label := "q_2" }
        = ConnectionOutcome.NoConnection :=
  ⟨by decide, by decide, by decide⟩

/-- C7 (amended): at `max_gap = 0` the same-contig gap check is disabled,
so every same-contig pair connects (in particular overlapping or touching
pairs); a cross-contig pair at `max_gap = 0` is accepted exactly when
either interval already touches an end of its own contig. -/
theorem c7_max_gap_zero_amended (cl : List (String × Nat)) (a b : HitInterval) :
    (a.contig = b.contig →
      connect cl 0 a b = ConnectionOutcome.SameContigConnection (sameContigGap a b))
    ∧ (a.contig ≠ b.contig →
        ((connect cl 0 a b ≠ ConnectionOutcome.NoConnection) ↔
          (minDist a (lenOf cl a.contig) = 0 ∨ minDist b (lenOf cl b.contig) = 0))) := by
  constructor
  · intro hctg
    have hb : (a.contig == b.contig) = true := beq_iff_eq.mpr hctg
    unfold connect
    rw [hb]
    simp [sameConnects]
  · intro hctg
    rw [connect_cross_ne_iff cl 0 a b hctg]
    unfold crossAccept
    rw [if_pos rfl]
    simp only [Bool.or_eq_true]
    rw [reaches_iff_minDist, reaches_iff_minDist]
    omega

/-- C7 witness: a concrete overlapping same-contig pair connects at
`max_gap = 0` with its (negative) overlap gap. -/
theorem c7_witness :
    connect [("c1", 100)] 0
      { contig := "c1", start := 0, stop := 10, source_label := "t_1" }
      { contig := "c1", start := 5, stop := 15, source_label := "t_2" }
      = ConnectionOutcome.SameContigConnection (-5) := by
  have h := (c7_max_gap_zero_amended [("c1", 100)]
    { contig := "c1", start := 0, stop := 10, source_label := "t_1" }
    { contig := "c1", start := 5, stop := 15, source_label := "t_2" }).1 rfl
  rw [h]
  decide

/-- C7 counterexample: a same-contig pair separated by a positive gap of 40
(neither overlapping nor touching) still connects at `max_gap = 0`,
refuting the claim that non-touching intervals never connect in that
setting. -/
theorem c7_counterexample :
    sameContigGap { contig := "c1", start := 0, stop := 10, source_label := "r_1" }
        { contig := "c1", start := 50, stop := 60, source_label := "r_2" } = 40
    ∧ connect [("c1", 100)] 0
        { contig := "c1", start := 0, stop := 10, source_label := "r_1" }
        { contig := "c1", start := 50, stop := 60, source_label := "r_2" }
        = ConnectionOutcome.SameContigConnection 40 :=
  ⟨by decide, by decide⟩

theorem mem_cons_head_crossConns (hitsA hitsB : List HitInterval) (cl : List (String × Nat))
    (g : Nat) (p : HitInterval × HitInterval) (rest : List (HitInterval × HitInterval))
    (h : crossConns hitsA hitsB cl g = p :: rest) : p ∈ crossConns hitsA hitsB cl g := by
  rw [h]
  exact List.mem_cons_self _ _

/-- C4: if a seed pair's outcome set holds more than one distinct accepted
connection and matches none of the earlier cascade rules, the classifier
returns evidence code 3; and code 3 ranks below an unambiguous single
connection: a seed pair with exactly one distinct accepted connection (at
positive `max_gap`) is classified 7, 5 or 6, never 3. -/
theorem c4_multiple_connections_code3 (hitsA hitsB : List HitInterval)
    (cl : List (String × Nat)) (g : Nat)
    (h1 : ¬(hitsA.length = 0 ∨ hitsB.length = 0 ∨ hitsA.length + hitsB.length = 1)) :
    (2 ≤ distinctConnCount hitsA hitsB cl g →
      ¬(sameConns hitsA hitsB g = [] ∧ ∃ p, crossConns hitsA hitsB cl g = [p] ∧
          ((endsWithin p.1 (lenOf cl p.1.contig) g = 2 ∧
            endsWithin p.2 (lenOf cl p.2.contig) g = 1) ∨
           (endsWithin p.1 (lenOf cl p.1.contig) g = 1 ∧
            endsWithin p.2 (lenOf cl p.2.contig) g = 2))) →
      (classifyFull hitsA hitsB cl g).1 = 3)
    ∧ (1 ≤ g → distinctConnCount hitsA hitsB cl g = 1 →
        (classifyFull hitsA hitsB cl g).1 = 7 ∨ (classifyFull hitsA hitsB cl g).1 = 5 ∨
          (classifyFull hitsA hitsB cl g).1 = 6) := by
  constructor
  · intro hcnt hnot
    rcases hsa : sameConns hitsA hitsB g with _ | ⟨pq, _ | ⟨pq2, sa2⟩⟩ <;>
      rcases hcr : crossConns hitsA hitsB cl g with _ | ⟨p, _ | ⟨q, cr2⟩⟩
    · exfalso
      unfold distinctConnCount at hcnt
      rw [hsa, hcr] at hcnt
      simp at hcnt
    · by_cases h6 : endsWithin p.1 (lenOf cl p.1.contig) g = 1 ∧
        endsWithin p.2 (lenOf cl p.2.contig) g = 1
      · exfalso
        unfold distinctConnCount at hcnt
        rw [hsa, hcr] at hcnt
        simp [crossMultiplicity, h6.1, h6.2] at hcnt
      · by_cases h4 : (endsWithin p.1 (lenOf cl p.1.contig) g = 2 ∧
            endsWithin p.2 (lenOf cl p.2.contig) g = 1) ∨
            (endsWithin p.1 (lenOf cl p.1.contig) g = 1 ∧
             endsWithin p.2 (lenOf cl p.2.contig) g = 2)
        · exact absurd ⟨hsa, p, hcr, h4⟩ hnot
        · unfold classifyFull
          rw [if_neg h1, hsa, hcr]
          simp [h6, h4]
    · unfold classifyFull
      rw [if_neg h1, hsa, hcr]
    · exfalso
      unfold distinctConnCount at hcnt
      rw [hsa, hcr] at hcnt
      simp at hcnt
    · unfold classifyFull
      rw [if_neg h1, hsa, hcr]
    · unfold classifyFull
      rw [if_neg h1, hsa, hcr]
    · unfold classifyFull
      rw [if_neg h1, hsa, hcr]
    · unfold classifyFull
      rw [if_neg h1, hsa, hcr]
    · unfold classifyFull
      rw [if_neg h1, hsa, hcr]
  · intro hg hcnt
    rcases hsa : sameConns hitsA hitsB g with _ | ⟨pq, _ | ⟨pq2, sa2⟩⟩ <;>
      rcases hcr : crossConns hitsA hitsB cl g with _ | ⟨p, _ | ⟨q, cr2⟩⟩
    · exfalso
      unfold distinctConnCount at hcnt
      rw [hsa, hcr] at hcnt
      simp at hcnt
    · right; right
      have hm : crossMultiplicity cl g p = 1 := by
        unfold distinctConnCount at hcnt
        rw [hsa, hcr] at hcnt
        simpa using hcnt
      unfold crossMultiplicity at hm
      have he1 := Nat.eq_one_of_mul_eq_one_right hm
      have he2 := Nat.eq_one_of_mul_eq_one_left hm
      unfold classifyFull
      rw [if_neg h1, hsa, hcr]
      simp [he1, he2]
    · exfalso
      have hp : 1 ≤ crossMultiplicity cl g p :=
        one_le_crossMultiplicity hitsA hitsB cl g p hg
          (mem_cons_head_crossConns hitsA hitsB cl g p _ hcr)
      have hq : 1 ≤ crossMultiplicity cl g q := by
        refine one_le_crossMultiplicity hitsA hitsB cl g q hg ?_
        rw [hcr]
        exact List.mem_cons_of_mem _ (List.mem_cons_self _ _)
      unfold distinctConnCount at hcnt
      rw [hsa, hcr] at hcnt
      simp [List.map_cons, List.sum_cons] at hcnt
      omega
    · unfold classifyFull
      rw [if_neg h1, hsa, hcr]
      by_cases htot : hitsA.length + hitsB.length = 2
      · left
        simp [htot]
      · right; left
        simp [htot]
    · exfalso
      have hp : 1 ≤ crossMultiplicity cl g p :=
        one_le_crossMultiplicity hitsA hitsB cl g p hg
          (mem_cons_head_crossConns hitsA hitsB cl g p _ hcr)
      unfold distinctConnCount at hcnt
      rw [hsa, hcr] at hcnt
      simp [List.map_cons, List.sum_cons] at hcnt
      omega
    · exfalso
      have hp : 1 ≤ crossMultiplicity cl g p :=
        one_le_crossMultiplicity hitsA hitsB cl g p hg
          (mem_cons_head_crossConns hitsA hitsB cl g p _ hcr)
      unfold distinctConnCount at hcnt
      rw [hsa, hcr] at hcnt
      simp [List.map_cons, List.sum_cons] at hcnt
      omega
    · exfalso
      unfold distinctConnCount at hcnt
      rw [hsa, hcr] at hcnt
      simp at hcnt
    · exfalso
      unfold distinctConnCount at hcnt
      rw [hsa, hcr] at hcnt
      simp at hcnt
      all_goals omega
    · exfalso
      unfold distinctConnCount at hcnt
      rw [hsa, hcr] at hcnt
      simp at hcnt
      all_goals omega

/-- C4 witness: two distinct same-contig accepted connections give
evidence code 3 at a concrete input. -/
theorem c4_witness :
    (classifyFull
      [{ contig := "c1", start := 0, stop := 10, source_label := "m_1" },
       { contig := "c1", start := 20, stop := 30, source_label := "m_1" }]
      [{ contig := "c1", start := 40, stop := 50, source_label := "m_2" }]
      [("c1", 1000)] 100).1 = 3 :=
  (c4_multiple_connections_code3
    [{ contig := "c1", start := 0, stop := 10, source_label := "m_1" },
     { contig := "c1", start := 20, stop := 30, source_label := "m_1" }]
    [{ contig := "c1", start := 40, stop := 50, source_label := "m_2" }]
    [("c1", 1000)] 100 (by decide)).1 (by decide)
    (fun h => absurd h.1 (by decide))

/-- C9: a `DataIntegrityError` is scoped to one seed pair: the per-genome
driver classifies every seed pair independently (the result at index `i`
only depends on the pair at index `i`); any malformed interval (start not
before end, or contig missing from the length table) makes that one
classification fail with `DataIntegrityError`; and an error result is
never an evidence code (in particular it is distinct from every `ok`
result, including code 2). -/
theorem c9_data_integrity_scoped
    (ps : List (String × List HitInterval × List HitInterval))
    (cl : List (String × Nat)) (g i : Nat) :
    (check_primers_placement ps cl g)[i]?
      = (ps[i]?).map (fun pr => (pr.1, examine_flanking_regions pr.2.1 pr.2.2 cl g))
    ∧ (∀ hitsA hitsB : List HitInterval, ∀ iv : HitInterval, iv ∈ hitsA ++ hitsB →
        validInterval cl iv = false →
        examine_flanking_regions hitsA hitsB cl g
          = Except.error MagphiError.DataIntegrityError)
    ∧ (∀ iv : HitInterval, validInterval cl iv = false ↔
        (iv.stop ≤ iv.start ∨ contigLen? cl iv.contig = none))
    ∧ (∀ r : Nat × Option (HitInterval × HitInterval) × List HitInterval,
        (Except.error MagphiError.DataIntegrityError :
            Except MagphiError (Nat × Option (HitInterval × HitInterval) × List HitInterval))
          ≠ Except.ok r) := by
  refine ⟨?_, ?_, ?_, ?_⟩
  · simp [check_primers_placement]
  · intro hitsA hitsB iv hmem hbad
    unfold examine_flanking_regions
    rw [if_neg ?_]
    intro hall
    have h := List.all_eq_true.mp hall iv hmem
    rw [hbad] at h
    cases h
  · intro iv
    cases h : contigLen? cl iv.contig <;> simp [validInterval, h]
  · intro r h
    exact Except.noConfusion h

/-- C9 witness: a malformed interval (start = end) in the first seed pair
fails with `DataIntegrityError`, while the sibling seed pair of the same
run is still classified normally. -/
theorem c9_witness :
    examine_flanking_regions
      [{ contig := "c1", start := 200, stop := 200, source_label := "u_1" }]
      [{ contig := "c1", start := 210, stop := 300, source_label := "u_2" }]
      [("c1", 1000)] 20 = Except.error MagphiError.DataIntegrityError
    ∧ (check_primers_placement
        [("bad_pair",
          [{ contig := "c1", start := 200, stop := 200, source_label := "u_1" }],
          [{ contig := "c1", start := 210, stop := 300, source_label := "u_2" }]),
         ("good_pair",
          [{ contig := "c1", start := 100, stop := 200, source_label := "u_1" }],
          [{ contig := "c1", start := 210, stop := 300, source_label := "u_2" }])]
        [("c1", 1000)] 20)[1]?
      = some ("good_pair",
          examine_flanking_regions
            [{ contig := "c1", start := 100, stop := 200, source_label := "u_1" }]
            [{ contig := "c1", start := 210, stop := 300, source_label := "u_2" }]
            [("c1", 1000)] 20) := by
  constructor
  · exact (c9_data_integrity_scoped [] [("c1", 1000)] 20 0).2.1
      [{ contig := "c1", start := 200, stop := 200, source_label := "u_1" }]
      [{ contig := "c1", start := 210, stop := 300, source_label := "u_2" }]
      { contig := "c1", start := 200, stop := 200, source_label := "u_1" }
      (by simp) (by decide)
  · have h := (c9_data_integrity_scoped
      [("bad_pair",
        [{ contig := "c1", start := 200, stop := 200, source_label := "u_1" }],
        [{ contig := "c1", start := 210, stop := 300, source_label := "u_2" }]),
       ("good_pair",
        [{ contig := "c1", start := 100, stop := 200, source_label := "u_1" }],
        [{ contig := "c1", start := 210, stop := 300, source_label := "u_2" }])]
      [("c1", 1000)] 20 1).1
    simpa using h

/-- C8 (amended): the rewritten interval pair is reported exactly when the
evidence code is 6 (the selected cross-contig connection), and the
persisted collection is rewritten at most once per seed pair: it stays the
original collection for codes 1, 2, 3 and 4; for codes 5 and 7 it is
replaced by the two intervals of the unique same-contig connection, with
their original coordinates (so for code 7, where no extra hits exist, the
collection is unchanged up to the connected pair being the whole
collection); boundary extension happens only for code 6, where the
collection becomes the two boundary-extended intervals. -/
theorem c8_persist_amended (hitsA hitsB : List HitInterval) (cl : List (String × Nat))
    (g : Nat) :
    ((classifyFull hitsA hitsB cl g).2.1.isSome ↔ (classifyFull hitsA hitsB cl g).1 = 6)
    ∧ ((classifyFull hitsA hitsB cl g).1 = 1 ∨ (classifyFull hitsA hitsB cl g).1 = 2 ∨
        (classifyFull hitsA hitsB cl g).1 = 3 ∨ (classifyFull hitsA hitsB cl g).1 = 4 →
        (classifyFull hitsA hitsB cl g).2.2 = hitsA ++ hitsB)
    ∧ ((classifyFull hitsA hitsB cl g).1 = 5 ∨ (classifyFull hitsA hitsB cl g).1 = 7 →
        ∃ pq, sameConns hitsA hitsB g = [pq] ∧
          (classifyFull hitsA hitsB cl g).2.2 = [pq.1, pq.2])
    ∧ ((classifyFull hitsA hitsB cl g).1 = 6 →
        ∃ p, crossConns hitsA hitsB cl g = [p] ∧
          (classifyFull hitsA hitsB cl g).2.2 =
            [extendToBoundary p.1 (lenOf cl p.1.contig),
             extendToBoundary p.2 (lenOf cl p.2.contig)]) := by
  by_cases h1 : hitsA.length = 0 ∨ hitsB.length = 0 ∨ hitsA.length + hitsB.length = 1
  · have hc : classifyFull hitsA hitsB cl g = (1, none, hitsA ++ hitsB) := by
      unfold classifyFull
      rw [if_pos h1]
    rw [hc]
    simp
  · rcases hsa : sameConns hitsA hitsB g with _ | ⟨pq, _ | ⟨pq2, sa2⟩⟩ <;>
      rcases hcr : crossConns hitsA hitsB cl g with _ | ⟨p, _ | ⟨q, cr2⟩⟩
    · have hc : classifyFull hitsA hitsB cl g = (2, none, hitsA ++ hitsB) := by
        unfold classifyFull
        rw [if_neg h1, hsa, hcr]
      rw [hc]
      simp
    · by_cases h6 : endsWithin p.1 (lenOf cl p.1.contig) g = 1 ∧
        endsWithin p.2 (lenOf cl p.2.contig) g = 1
      · have hc : classifyFull hitsA hitsB cl g =
            (6, some (extendToBoundary p.1 (lenOf cl p.1.contig),
                      extendToBoundary p.2 (lenOf cl p.2.contig)),
             [extendToBoundary p.1 (lenOf cl p.1.contig),
              extendToBoundary p.2 (lenOf cl p.2.contig)]) := by
          unfold classifyFull
          rw [if_neg h1, hsa, hcr]
          simp [h6.1, h6.2]
        rw [hc]
        exact ⟨by simp, by simp, by simp, fun _ => ⟨p, rfl, by simp⟩⟩
      · by_cases h4 : (endsWithin p.1 (lenOf cl p.1.contig) g = 2 ∧
            endsWithin p.2 (lenOf cl p.2.contig) g = 1) ∨
            (endsWithin p.1 (lenOf cl p.1.contig) g = 1 ∧
             endsWithin p.2 (lenOf cl p.2.contig) g = 2)
        · have hc : classifyFull hitsA hitsB cl g = (4, none, hitsA ++ hitsB) := by
            unfold classifyFull
            rw [if_neg h1, hsa, hcr]
            simp [h6, h4]
          rw [hc]
          simp
        · have hc : classifyFull hitsA hitsB cl g = (3, none, hitsA ++ hitsB) := by
            unfold classifyFull
            rw [if_neg h1, hsa, hcr]
            simp [h6, h4]
          rw [hc]
          simp
    · have hc : classifyFull hitsA hitsB cl g = (3, none, hitsA ++ hitsB) := by
        unfold classifyFull
        rw [if_neg h1, hsa, hcr]
      rw [hc]
      simp
    · by_cases htot : hitsA.length + hitsB.length = 2
      · have hc : classifyFull hitsA hitsB cl g = (7, none, [pq.1, pq.2]) := by
          unfold classifyFull
          rw [if_neg h1, hsa, hcr]
          simp [htot]
        rw [hc]
        exact ⟨by simp, by simp, fun _ => ⟨pq, rfl, by simp⟩, by simp⟩
      · have hc : classifyFull hitsA hitsB cl g = (5, none, [pq.1, pq.2]) := by
          unfold classifyFull
          rw [if_neg h1, hsa, hcr]
          simp [htot]
        rw [hc]
        exact ⟨by simp, by simp, fun _ => ⟨pq, rfl, by simp⟩, by simp⟩
    · have hc : classifyFull hitsA hitsB cl g = (3, none, hitsA ++ hitsB) := by
        unfold classifyFull
        rw [if_neg h1, hsa, hcr]
      rw [hc]
      simp
    · have hc : classifyFull hitsA hitsB cl g = (3, none, hitsA ++ hitsB) := by
        unfold classifyFull
        rw [if_neg h1, hsa, hcr]
      rw [hc]
      simp
    · have hc : classifyFull hitsA hitsB cl g = (3, none, hitsA ++ hitsB) := by
        unfold classifyFull
        rw [if_neg h1, hsa, hcr]
      rw [hc]
      simp
    · have hc : classifyFull hitsA hitsB cl g = (3, none, hitsA ++ hitsB) := by
        unfold classifyFull
        rw [if_neg h1, hsa, hcr]
      rw [hc]
      simp
    · have hc : classifyFull hitsA hitsB cl g = (3, none, hitsA ++ hitsB) := by
        unfold classifyFull
        rw [if_neg h1, hsa, hcr]
      rw [hc]
      simp

/-- C8 witness: a non-connecting input (code 2) leaves the persisted
collection exactly the original one. -/
theorem c8_witness :
    (classifyFull
      [{ contig := "c1", start := 100, stop := 200, source_label := "n_1" }]
      [{ contig := "c1", start := 500, stop := 600, source_label := "n_2" }]
      [("c1", 1000)] 1).2.2
      = [{ contig := "c1", start := 100, stop := 200, source_label := "n_1" }] ++
        [{ contig := "c1", start := 500, stop := 600, source_label := "n_2" }] :=
  (c8_persist_amended
    [{ contig := "c1", start := 100, stop := 200, source_label := "n_1" }]
    [{ contig := "c1", start := 500, stop := 600, source_label := "n_2" }]
    [("c1", 1000)] 1).2.1 (Or.inr (Or.inl rfl))

/-- C8 counterexample: an accepted same-contig connection amid an extra
hit (evidence code 5) does rewrite the on-disk collection: the unconnected
extra hit is dropped, so the persisted intervals are not the original
ones, refuting the claim that same-contig connections leave the on-disk
collection untouched. -/
theorem c8_counterexample :
    examine_flanking_regions
      [{ contig := "c1", start := 100, stop := 200, source_label := "cp_1" },
       { contig := "c1", start := 700, stop := 750, source_label := "cp_1" }]
      [{ contig := "c1", start := 210, stop := 300, source_label := "cp_2" }]
      [("c1", 1000)] 20
      = Except.ok (5, none,
          [{ contig := "c1", start := 100, stop := 200, source_label := "cp_1" },
           { contig := "c1", start := 210, stop := 300, source_label := "cp_2" }])
    ∧ ([{ contig := "c1", start := 100, stop := 200, source_label := "cp_1" },
        { contig := "c1", start := 210, stop := 300, source_label := "cp_2" }] :
          List HitInterval)
      ≠ [{ contig := "c1", start := 100, stop := 200, source_label := "cp_1" },
         { contig := "c1", start := 700, stop := 750, source_label := "cp_1" },
         { contig := "c1", start := 210, stop := 300, source_label := "cp_2" }] :=
  ⟨rfl, by decide⟩
